import Mathlib

/-!
# Formal model of `mdgo/mdgopackmol.py` (`PackmolWrapper`)

A shallow embedding of the `PackmolWrapper` class: its constructor,
`make_packmol_input` (control-file composition, box estimation, sidecar
serialization) and `run_packmol` (external process outcome handling).

Modelling conventions:
* Python floats are modelled as `ℚ`; the inexact float operations
  (`** (1/3)`, `str(float)`) are abstracted as fields of `Externals`.
* File writes are modelled as an ordered list of `(path, content)` events;
  a write event replaces the whole file (Python `open(path, "w")`).
* The external collaborators (`pymatgen.core.Molecule`,
  `mdgo.volume.molecular_volume`) are abstracted as an `Externals` record
  of total functions, as their code is outside this module.
* Decoded process output (`bytes.decode()`) is modelled as `String`.
-/

namespace MdgoPackmol

/-- The characters of the in-band failure marker `"ERROR"` that
`run_packmol` searches for in the captured standard output. -/
def errorMark : List Char := ['E', 'R', 'R', 'O', 'R']

/-- Embeds the Python substring test `"ERROR" in s` on the character list
of the decoded standard output. -/
def containsERRORL : List Char → Bool
  | [] => false
  | c :: rest => errorMark.isPrefixOf (c :: rest) || containsERRORL rest

/-- Embeds Python `s.split("ERROR")`: splits a character list at each
non-overlapping occurrence of `"ERROR"`, scanning left to right. -/
def splitERRORL : List Char → List (List Char)
  | 'E' :: 'R' :: 'R' :: 'O' :: 'R' :: rest => [] :: splitERRORL rest
  | [] => [[]]
  | c :: rest =>
    match splitERRORL rest with
    | [] => [[c]]
    | h :: t => (c :: h) :: t

/-- Embeds `"ERROR" in s` at `String` level. -/
def containsERROR (s : String) : Bool :=
  containsERRORL s.data

/-- Embeds Python `s.split("ERROR")[-1]`: everything after the last
occurrence of `"ERROR"`, or the whole string when there is none. -/
def afterLastERROR (s : String) : String :=
  ⟨(splitERRORL s.data).getLastD []⟩

/-- Model of an in-memory `pymatgen.core.Molecule` object (an external
collaborator): identified opaquely. -/
structure Molecule where
  mid : Nat
deriving DecidableEq

/-- The runtime type of the `"coords"` entry of a molecule dict:
a `str` path, a `pathlib.Path`, an in-memory `Molecule`, or any other
value (which matches none of the `isinstance` branches). -/
inductive Coords where
  | str (s : String)
  | pathObj (p : String)
  | mol (m : Molecule)
  | other
deriving DecidableEq

/-- One entry of the `molecules` list: a dict with keys
`"name"`, `"number"`, `"coords"`. -/
structure MolDict where
  name : String
  number : Int
  coords : Coords
deriving DecidableEq

/-- A value of the `control_params` mapping: a scalar (modelled by its
`str` image) or a list of scalars. -/
inductive CtrlVal where
  | scalar (s : String)
  | list (xs : List String)
deriving DecidableEq

/-- The external collaborators used by `PackmolWrapper`, abstracted as
total functions (their code is outside this module):
`from_file` models `Molecule.from_file` applied to the raw `"coords"`
object; `molecular_volume` models `mdgo.volume.molecular_volume` with
`radii_type="pymatgen"`, `molar_volume=False`; `to_xyz` gives the
serialized content produced by `Molecule.to(filename=...)`; `cbrt`
models the float power `** (1.0 / 3.0)`; `float_str` models Python
`str` on a float. -/
structure Externals where
  from_file : Coords → Molecule
  molecular_volume : Molecule → ℚ
  to_xyz : Molecule → String
  cbrt : ℚ → ℚ
  float_str : ℚ → String

/-- Embeds `os.path.join` for POSIX paths as used by the constructor. -/
def pathJoin (a b : String) : String :=
  if b.data.head? = some '/' then b
  else if a = "" ∨ a.data.getLast? = some '/' then a ++ b
  else a ++ "/" ++ b

/-- The attribute state of a `PackmolWrapper` instance. -/
structure PackmolWrapper where
  path : String
  input : String
  output : String
  screen : String
  molecules : List MolDict
  control_params : List (String × CtrlVal)
  box : Option (List ℚ)
  tolerance : ℚ
  seed : Int
deriving DecidableEq

/-- Embeds `PackmolWrapper.__init__` (defaults: `box=None`,
`tolerance=2.0`, `seed=1`, `control_params=None`,
`inputfile="packmol.inp"`, `outputfile="packmol_out.xyz"`).
`control_params if control_params else {}` maps both `None` and an
empty mapping to the empty mapping. -/
def packmolWrapperInit (path : String) (molecules : List MolDict)
    (box : Option (List ℚ)) (tolerance : ℚ) (seed : Int)
    (control_params : Option (List (String × CtrlVal)))
    (inputfile outputfile : String) : PackmolWrapper :=
  { path := path
    input := pathJoin path inputfile
    output := pathJoin path outputfile
    screen := pathJoin path "packmol.stdout"
    molecules := molecules
    control_params := control_params.getD []
    box := box
    tolerance := tolerance
    seed := seed }

/-- Embeds Python `"{:.1f}".format(q)`: the value rounded to one decimal
place, rendered as `<int>.<digit>`. -/
def fmtOneDec (q : ℚ) : String :=
  let n : ℤ := round (q * 10)
  (if n < 0 then "-" else "") ++ toString (n.natAbs / 10) ++ "." ++ toString (n.natAbs % 10)

/-- Embeds the truthiness test `if self.box:` on an
`Optional[List[float]]`: `None` and the empty list are falsy. -/
def pyTruthyBox : Option (List ℚ) → Bool
  | none => false
  | some l => !l.isEmpty

/-- Embeds the molecule resolution in the box-estimation loop:
`mol = d["coords"] if isinstance(d["coords"], Molecule) else
Molecule.from_file(d["coords"])`. -/
def resolveVol (ext : Externals) (d : MolDict) : Molecule :=
  match d.coords with
  | .mol m => m
  | c => ext.from_file c

/-- Embeds the box-estimation accumulation loop of
`make_packmol_input`: ` vol = molecular_volume(mol); vol *= tolerance;
net_volume += vol * number`. -/
def netVolume (ext : Externals) (mols : List MolDict) (tol : ℚ) : ℚ :=
  mols.foldl (fun acc d => acc + ext.molecular_volume (resolveVol ext d) * tol * d.number) 0

/-- The estimated cube side `box_length = net_volume ** (1.0 / 3.0)`. -/
def boxLengthOf (ext : Externals) (w : PackmolWrapper) : ℚ :=
  ext.cbrt (netVolume ext w.molecules w.tolerance)

/-- The estimated `box_list` string
`"0.0 0.0 0.0 {:.1f} {:.1f} {:.1f}".format(box_length, box_length, box_length)`. -/
def estimatedBoxList (ext : Externals) (w : PackmolWrapper) : String :=
  "0.0 0.0 0.0 " ++ fmtOneDec (boxLengthOf ext w) ++ " " ++
    fmtOneDec (boxLengthOf ext w) ++ " " ++ fmtOneDec (boxLengthOf ext w)

/-- The `box_list` string of `make_packmol_input`: the supplied box
space-joined when truthy, else the estimated cubic box. -/
def boxListOf (ext : Externals) (w : PackmolWrapper) : String :=
  if pyTruthyBox w.box then
    String.intercalate " " ((w.box.getD []).map ext.float_str)
  else
    estimatedBoxList ext w

/-- The sidecar file name `f"packmol_molecule_{i}.xyz"`. -/
def sidecarName (i : Nat) : String :=
  "packmol_molecule_" ++ toString i ++ ".xyz"

/-- The chunks written for one molecule of the structure loop of
`make_packmol_input` (one chunk per `out.write` call): an optional
`structure` line depending on the runtime type of `"coords"`, then the
`number`, `inside box` and `end structure` lines. -/
def structureChunks (box_list : String) (i : Nat) (d : MolDict) : List String :=
  (match d.coords with
   | .str s => ["structure " ++ s ++ "\n"]
   | .pathObj p => ["structure " ++ p ++ "\n"]
   | .mol _ => ["structure " ++ sidecarName i ++ "\n"]
   | .other => []) ++
  ["  number " ++ toString d.number ++ "\n",
   "  inside box " ++ box_list ++ "\n",
   "end structure\n\n"]

/-- The chunk lists of all structure blocks, in molecule order. -/
def allBlockChunks (ext : Externals) (w : PackmolWrapper) : List (List String) :=
  w.molecules.enum.map fun p => structureChunks (boxListOf ext w) p.1 p.2

/-- The chunk written for one `control_params` entry. -/
def ctrlChunk (p : String × CtrlVal) : String :=
  match p.2 with
  | .list xs => p.1 ++ " " ++ String.intercalate " " xs ++ "\n"
  | .scalar s => p.1 ++ " " ++ s ++ "\n"

/-- The chunks written before the structure blocks (one per `out.write`
call): the two header comments, the `control_params` lines, the `seed`
and `tolerance` lines, `filetype xyz`, and the double-quoted `output`
line. -/
def preambleChunks (ext : Externals) (w : PackmolWrapper) : List String :=
  ["# " ++ String.intercalate " + "
      (w.molecules.map fun d => toString d.number ++ " " ++ d.name) ++ "\n",
   "# Packmol input generated by mdgo.\n"] ++
  w.control_params.map ctrlChunk ++
  ["seed " ++ toString w.seed ++ "\n",
   "tolerance " ++ ext.float_str w.tolerance ++ "\n\n",
   "filetype xyz\n\n",
   "output \x22" ++ w.output ++ "\x22\n\n"]

/-- All chunks written to the input file by `make_packmol_input`, in
write order. -/
def inputChunks (ext : Externals) (w : PackmolWrapper) : List String :=
  preambleChunks ext w ++ (allBlockChunks ext w).flatten

/-- A file-write event: the whole content written to a path opened in
write mode (prior contents replaced). -/
structure FileWrite where
  fpath : String
  content : String
deriving DecidableEq

/-- The sidecar writes of the structure loop: for each molecule whose
`"coords"` is an in-memory `Molecule`,
`d["coords"].to(filename=f"packmol_molecule_{i}.xyz")` — note the bare
relative file name. -/
def sidecarWrites (ext : Externals) (w : PackmolWrapper) : List FileWrite :=
  w.molecules.enum.filterMap fun p =>
    match p.2.coords with
    | .mol m => some ⟨sidecarName p.1, ext.to_xyz m⟩
    | _ => none

/-- The observable result of a `make_packmol_input` call: the file
writes it performs (sidecars first, then the input file, matching the
order in which the file handles are closed), the lines it prints, and
the attribute state of the wrapper after the call. -/
structure ComposeResult where
  writes : List FileWrite
  printed : List String
  state : PackmolWrapper
deriving DecidableEq

/-- Embeds `PackmolWrapper.make_packmol_input`. The method assigns no
attribute, so the resulting state is the receiver unchanged. -/
def make_packmol_input (ext : Externals) (w : PackmolWrapper) : ComposeResult :=
  { writes := sidecarWrites ext w ++ [⟨w.input, String.join (inputChunks ext w)⟩]
    printed :=
      if pyTruthyBox w.box then []
      else ["Auto determined box size is " ++ fmtOneDec (boxLengthOf ext w) ++ " Å per side."]
    state := w }

/-- The outcome of the external `packmol` process as observed through
`subprocess.run(..., check=True, timeout=...)`: either it completed
with an exit code and captured (decoded) output streams, or it exceeded
the timeout. -/
inductive ProcOutcome where
  | completed (returncode : Int) (stdout : String) (stderr : String)
  | timedOut
deriving DecidableEq

/-- The failure modes of `run_packmol`: `ValueError` (with its message)
or the uncaught `subprocess.TimeoutExpired`. -/
inductive RunErr where
  | valueError (msg : String)
  | timeoutExpired
deriving DecidableEq

deriving instance DecidableEq for Except

/-- Embeds `PackmolWrapper.run_packmol`. A `completed` outcome with a
non-zero exit code is what `check=True` surfaces as
`CalledProcessError`, re-raised as a `ValueError` carrying the exit
code and captured stderr; a zero exit code with `"ERROR"` in the
decoded stdout raises a `ValueError` carrying `split("ERROR")[-1]`;
otherwise the decoded stdout is written to `self.screen`. A timeout
propagates `subprocess.TimeoutExpired` uncaught, and no file is
written. -/
def run_packmol (w : PackmolWrapper) (outcome : ProcOutcome) : Except RunErr (List FileWrite) :=
  match outcome with
  | .timedOut => .error .timeoutExpired
  | .completed rc stdout stderr =>
    if rc ≠ 0 then
      .error (.valueError ("Packmol failed with errorcode " ++ toString rc ++
        " and stderr: " ++ stderr))
    else if containsERROR stdout then
      .error (.valueError ("Packmol failed with return code 0 and stdout: " ++
        afterLastERROR stdout))
    else
      .ok [⟨w.screen, stdout⟩]

/-! ## Properties of the `"ERROR"` split -/

/-- A split never produces the empty list of parts. -/
theorem splitERRORL_ne_nil (l : List Char) : splitERRORL l ≠ [] := by
  induction l using splitERRORL.induct with
  | case1 rest ih => simp [splitERRORL]
  | case2 => simp [splitERRORL]
  | case3 c rest hnm hsplit ih => exact absurd hsplit ih
  | case4 c rest hnm h t hsplit ih =>
    rw [splitERRORL.eq_3 c rest hnm, hsplit]
    simp

/-- A list starting with the marker contains the marker. -/
theorem containsERRORL_cons_mark (rest : List Char) :
    containsERRORL ('E' :: 'R' :: 'R' :: 'O' :: 'R' :: rest) = true := by
  rw [containsERRORL]
  simp [errorMark, List.isPrefixOf]

/-- The no-match side condition of the split's catch-all case means the
marker is not a prefix. -/
theorem not_mark_of_hnm {c : Char} {rest : List Char}
    (hnm : ∀ (rest_1 : List Char), c = 'E' → rest = 'R' :: 'R' :: 'O' :: 'R' :: rest_1 → False) :
    errorMark.isPrefixOf (c :: rest) = false := by
  by_contra hb
  rw [Bool.not_eq_false] at hb
  rcases List.isPrefixOf_iff_prefix.mp hb with ⟨t, ht⟩
  simp only [errorMark] at ht
  cases ht
  exact hnm t rfl rfl

/-- Splitting a list without the marker gives back the whole list as the
single part (Python `s.split(sep) == [s]` when `sep not in s`). -/
theorem splitERRORL_of_not_contains (l : List Char) (h : containsERRORL l = false) :
    splitERRORL l = [l] := by
  induction l using splitERRORL.induct with
  | case1 rest ih => rw [containsERRORL_cons_mark] at h; exact absurd h (by simp)
  | case2 => simp [splitERRORL]
  | case3 c rest hnm hsplit ih => exact absurd hsplit (splitERRORL_ne_nil rest)
  | case4 c rest hnm h' t hsplit ih =>
    rw [containsERRORL] at h
    simp only [Bool.or_eq_false_iff] at h
    rw [splitERRORL.eq_3 c rest hnm, hsplit]
    have := ih h.2
    rw [hsplit] at this
    cases this
    rfl

/-- Splitting a list containing the marker gives at least two parts. -/
theorem two_le_splitERRORL_of_contains (l : List Char) (h : containsERRORL l = true) :
    2 ≤ (splitERRORL l).length := by
  induction l using splitERRORL.induct with
  | case1 rest ih =>
    rw [splitERRORL.eq_1]
    have h1 : splitERRORL rest ≠ [] := splitERRORL_ne_nil rest
    have h2 : 1 ≤ (splitERRORL rest).length := by
      cases hs : splitERRORL rest with
      | nil => exact absurd hs h1
      | cons aa bb => simp
    simp only [List.length_cons]
    omega
  | case2 => simp [containsERRORL] at h
  | case3 c rest hnm hsplit ih => exact absurd hsplit (splitERRORL_ne_nil rest)
  | case4 c rest hnm h' t hsplit ih =>
    rw [containsERRORL, not_mark_of_hnm hnm, Bool.false_or] at h
    have := ih h
    rw [splitERRORL.eq_3 c rest hnm, hsplit]
    rw [hsplit] at this
    simp only [List.length_cons] at this ⊢
    omega

/-- A list of the shape `a ++ "ERROR" ++ b` contains the marker. -/
theorem containsERRORL_append_mark (a b : List Char) :
    containsERRORL (a ++ errorMark ++ b) = true := by
  induction a with
  | nil =>
    simp only [List.nil_append, errorMark, List.cons_append]
    exact containsERRORL_cons_mark b
  | cons c a' ih =>
    rw [List.cons_append, List.cons_append, containsERRORL, ih]
    simp

/-- When `a ++ "ERROR" ++ b` itself starts with the marker, either the
occurrence is exactly the middle one (`a = []`), or it lies inside `a`
(the marker cannot overlap itself). -/
theorem mark_overlap {a b rest : List Char}
    (hl : a ++ errorMark ++ b = 'E' :: 'R' :: 'R' :: 'O' :: 'R' :: rest) :
    (a = [] ∧ b = rest) ∨
      ∃ a', a = 'E' :: 'R' :: 'R' :: 'O' :: 'R' :: a' ∧ a' ++ errorMark ++ b = rest := by
  rcases a with _ | ⟨c1, _ | ⟨c2, _ | ⟨c3, _ | ⟨c4, _ | ⟨c5, a5⟩⟩⟩⟩⟩
  · left
    simp only [errorMark, List.nil_append, List.cons_append, List.cons.injEq] at hl
    exact ⟨rfl, hl.2.2.2.2.2⟩
  · exfalso
    simp only [errorMark, List.cons_append, List.nil_append, List.cons.injEq] at hl
    exact absurd hl.2.1 (by decide)
  · exfalso
    simp only [errorMark, List.cons_append, List.nil_append, List.cons.injEq] at hl
    exact absurd hl.2.2.1 (by decide)
  · exfalso
    simp only [errorMark, List.cons_append, List.nil_append, List.cons.injEq] at hl
    exact absurd hl.2.2.2.1 (by decide)
  · exfalso
    simp only [errorMark, List.cons_append, List.nil_append, List.cons.injEq] at hl
    exact absurd hl.2.2.2.2.1 (by decide)
  · right
    simp only [errorMark, List.cons_append, List.cons.injEq] at hl
    obtain ⟨h1, h2, h3, h4, h5, hrest⟩ := hl
    subst h1; subst h2; subst h3; subst h4; subst h5
    exact ⟨a5, rfl, by simpa [errorMark] using hrest⟩

/-- The last part of the split of `a ++ "ERROR" ++ b` is `b`, provided
`b` holds no further occurrence: Python `s.split("ERROR")[-1]` is the
text after the LAST occurrence of the marker. -/
theorem getLastD_splitERRORL_append (a b : List Char) (hb : containsERRORL b = false) :
    (splitERRORL (a ++ errorMark ++ b)).getLastD [] = b := by
  generalize hl : a ++ errorMark ++ b = l
  induction l using splitERRORL.induct generalizing a with
  | case1 rest ih =>
    rcases mark_overlap hl with ⟨ha, hbr⟩ | ⟨a', ha, hrest⟩
    · subst hbr
      rw [splitERRORL.eq_1, splitERRORL_of_not_contains b hb]
      simp
    · rw [splitERRORL.eq_1]
      have hx := ih a' hrest
      cases hs : splitERRORL rest with
      | nil => exact absurd hs (splitERRORL_ne_nil rest)
      | cons y ys =>
        rw [hs] at hx
        simpa using hx
  | case2 =>
    exfalso
    have := congrArg List.length hl
    simp [errorMark] at this
  | case3 c rest hnm hsplit ih => exact absurd hsplit (splitERRORL_ne_nil rest)
  | case4 c rest hnm h' t hsplit ih =>
    rcases a with _ | ⟨c0, a'⟩
    · exfalso
      simp only [errorMark, List.nil_append, List.cons_append, List.cons.injEq] at hl
      exact hnm b hl.1.symm hl.2.symm
    · have hl' : c0 :: (a' ++ errorMark ++ b) = c :: rest := by simpa using hl
      injection hl' with hc hrest
      have hx := ih a' hrest
      have hcont : containsERRORL rest = true := hrest ▸ containsERRORL_append_mark a' b
      have h2 := two_le_splitERRORL_of_contains rest hcont
      rw [splitERRORL.eq_3 c rest hnm, hsplit]
      rw [hsplit] at hx h2
      cases t with
      | nil => simp at h2
      | cons x ts =>
        simp only [List.getLastD_cons] at hx ⊢
        exact hx

/-! ## Concrete instances used by witnesses and counterexamples -/

/-- A concrete instantiation of the external collaborators, used to
evaluate the model at concrete inputs. -/
def extEx : Externals :=
  { from_file := fun _ => ⟨0⟩
    molecular_volume := fun _ => 1
    to_xyz := fun _ => "1\n\nO 0.0 0.0 0.0\n"
    cbrt := fun _ => 2
    float_str := fun _ => "10.0" }

/-- A concrete wrapper built by the constructor with the default
arguments and no molecules. -/
def wEx : PackmolWrapper :=
  packmolWrapperInit "/work" [] none 2 1 none "packmol.inp" "packmol_out.xyz"

/-! ## Claims about `run_packmol` -/

/-- C1 (counterexample): with standard output `"ERRORaERRORb"` (exit
code 0), the diagnostic text carried by the `ValueError` is `"b"` — the
text after the LAST occurrence of `"ERROR"` — and not `"aERRORb"`, the
text after the FIRST occurrence, as the claim states. -/
theorem C1_counterexample :
    run_packmol wEx (.completed 0 "ERRORaERRORb" "") =
      .error (.valueError "Packmol failed with return code 0 and stdout: b") ∧
    run_packmol wEx (.completed 0 "ERRORaERRORb" "") ≠
      .error (.valueError "Packmol failed with return code 0 and stdout: aERRORb") := by
  constructor
  · decide
  · decide

/-- C1 (amended): for every completed run with exit code 0 whose
standard output decomposes as `a ++ "ERROR" ++ b` with no further
occurrence of `"ERROR"` in `b` (so `b` is the text after the LAST
occurrence), `run_packmol` fails with a `ValueError` whose diagnostic
text is `b`. -/
theorem C1_amended (w : PackmolWrapper) (a b : List Char) (stderr : String)
    (hb : containsERRORL b = false) :
    run_packmol w (.completed 0 ⟨a ++ errorMark ++ b⟩ stderr) =
      .error (.valueError ("Packmol failed with return code 0 and stdout: " ++ (⟨b⟩ : String))) := by
  have h1 : containsERROR ⟨a ++ errorMark ++ b⟩ = true := containsERRORL_append_mark a b
  have h2 : afterLastERROR ⟨a ++ errorMark ++ b⟩ = ⟨b⟩ :=
    congrArg String.mk (getLastD_splitERRORL_append a b hb)
  simp only [run_packmol]
  rw [if_neg (by simp), if_pos h1, h2]

/-- C1 (witness): the amended theorem at stdout `"sunny ERRORdoom"`. -/
theorem C1_witness :
    containsERRORL "doom".data = false ∧
    run_packmol wEx (.completed 0 ⟨"sunny ".data ++ errorMark ++ "doom".data⟩ "") =
      .error (.valueError ("Packmol failed with return code 0 and stdout: " ++
        (⟨"doom".data⟩ : String))) :=
  ⟨by decide, C1_amended wEx "sunny ".data "doom".data "" (by decide)⟩

/-- C5: a completed run with a non-zero exit code (surfaced by
`check=True` as `CalledProcessError`) makes `run_packmol` fail with a
`ValueError` carrying the exit code and the captured standard error,
and no log file is written (the result is not a write list). -/
theorem C5_nonzero_exit (w : PackmolWrapper) (rc : Int) (stdout stderr : String)
    (h : rc ≠ 0) :
    run_packmol w (.completed rc stdout stderr) =
      .error (.valueError ("Packmol failed with errorcode " ++ toString rc ++
        " and stderr: " ++ stderr)) ∧
    ∀ ws : List FileWrite, run_packmol w (.completed rc stdout stderr) ≠ .ok ws := by
  refine ⟨by simp [run_packmol, h], ?_⟩
  intro ws
  simp [run_packmol, h]

/-- C5 (witness): the theorem at exit code 2. -/
theorem C5_witness :
    (2 : Int) ≠ 0 ∧
    (run_packmol wEx (.completed 2 "" "segfault") =
      .error (.valueError ("Packmol failed with errorcode " ++ toString (2 : Int) ++
        " and stderr: " ++ "segfault")) ∧
    ∀ ws : List FileWrite, run_packmol wEx (.completed 2 "" "segfault") ≠ .ok ws) :=
  ⟨by decide, C5_nonzero_exit wEx 2 "" "segfault" (by decide)⟩

/-- C6: a run exceeding the timeout propagates the uncaught
`TimeoutExpired`, and no log file is written. -/
theorem C6_timeout (w : PackmolWrapper) :
    run_packmol w .timedOut = .error .timeoutExpired ∧
    ∀ ws : List FileWrite, run_packmol w .timedOut ≠ .ok ws := by
  exact ⟨rfl, by intro ws; simp [run_packmol]⟩

/-- C7: a completed run with exit code 0 and no `"ERROR"` in its
standard output succeeds, and the single file write is the decoded
standard output placed at `self.screen` (replacing prior contents). -/
theorem C7_success (w : PackmolWrapper) (stdout stderr : String)
    (h : containsERROR stdout = false) :
    run_packmol w (.completed 0 stdout stderr) = .ok [⟨w.screen, stdout⟩] := by
  simp [run_packmol, h]

/-- C7 (witness): the theorem at a benign output. -/
theorem C7_witness :
    containsERROR "Success!\n" = false ∧
    run_packmol wEx (.completed 0 "Success!\n" "") = .ok [⟨wEx.screen, "Success!\n"⟩] :=
  ⟨by decide, C7_success wEx "Success!\n" "" (by decide)⟩

/-! ## Claims about `make_packmol_input` -/

/-- A concrete wrapper with one in-memory molecule and no box, so the
composition call runs the volume-based estimation. -/
def wEst : PackmolWrapper :=
  packmolWrapperInit "/work" [⟨"water", 10, Coords.mol ⟨7⟩⟩] none 2 1 none
    "packmol.inp" "packmol_out.xyz"

/-- C2 (counterexample): on a wrapper constructed with no box, the
attribute state after the first `make_packmol_input` call still has
`box = None` — the derived box is not stored, contradicting the claimed
compute-once lazy caching. -/
theorem C2_counterexample :
    wEst.box = none ∧ (make_packmol_input extEx wEst).state.box = none :=
  ⟨rfl, rfl⟩

/-- C2 (amended): the wrapper state is immutable across
`make_packmol_input` — including `box`, which is never assigned — and a
second composition call therefore redoes the whole computation (box
estimation included) and returns an identical result. -/
theorem C2_amended (ext : Externals) (w : PackmolWrapper) :
    (make_packmol_input ext w).state = w ∧
    make_packmol_input ext ((make_packmol_input ext w).state) = make_packmol_input ext w :=
  ⟨rfl, rfl⟩

/-- A concrete wrapper with one in-memory molecule and an explicit box. -/
def wMol : PackmolWrapper :=
  packmolWrapperInit "/work" [⟨"water", 1, Coords.mol ⟨7⟩⟩]
    (some [0, 0, 0, 10, 10, 10]) 2 1 none "packmol.inp" "packmol_out.xyz"

/-- C3 (counterexample): for a wrapper whose working directory is
`"/work"`, the sidecar serialization of the in-memory molecule at index
0 is written at the bare relative name `packmol_molecule_0.xyz`; no
write targets `/work/packmol_molecule_0.xyz`, the path the claim
requires. -/
theorem C3_counterexample :
    (make_packmol_input extEx wMol).writes.map FileWrite.fpath =
      [sidecarName 0, "/work/packmol.inp"] ∧
    ∀ fw ∈ (make_packmol_input extEx wMol).writes,
      fw.fpath ≠ pathJoin wMol.path (sidecarName 0) := by
  constructor
  · decide
  · decide

/-- C3 (amended): a spec whose source is an in-memory structure at
zero-based position `i` is serialized to a sidecar write whose path is
the bare name `packmol_molecule_<i>.xyz` (relative to the process
current directory, not joined with the configured working directory),
and the control file's block for that spec opens with a `structure`
line referencing exactly that generated name. -/
theorem C3_amended (ext : Externals) (w : PackmolWrapper) (i : Nat) (d : MolDict)
    (m : Molecule) (hi : w.molecules[i]? = some d) (hm : d.coords = Coords.mol m) :
    (⟨sidecarName i, ext.to_xyz m⟩ : FileWrite) ∈ (make_packmol_input ext w).writes ∧
    (allBlockChunks ext w)[i]? = some
      ["structure " ++ sidecarName i ++ "\n",
       "  number " ++ toString d.number ++ "\n",
       "  inside box " ++ boxListOf ext w ++ "\n",
       "end structure\n\n"] := by
  have henum : w.molecules.enum[i]? = some (i, d) := by
    rw [List.getElem?_enum, hi]
    rfl
  constructor
  · apply List.mem_append_left
    rw [sidecarWrites, List.mem_filterMap]
    refine ⟨(i, d), List.getElem?_mem henum, ?_⟩
    simp only [hm]
  · rw [allBlockChunks, List.getElem?_map, henum]
    simp [structureChunks, hm]

/-- C3 (witness): the amended theorem at `wMol`, index 0. -/
theorem C3_witness :
    wMol.molecules[0]? = some ⟨"water", 1, Coords.mol ⟨7⟩⟩ ∧
    (MolDict.coords ⟨"water", 1, Coords.mol ⟨7⟩⟩ = Coords.mol ⟨7⟩) ∧
    ((⟨sidecarName 0, extEx.to_xyz ⟨7⟩⟩ : FileWrite) ∈ (make_packmol_input extEx wMol).writes ∧
    (allBlockChunks extEx wMol)[0]? = some
      ["structure " ++ sidecarName 0 ++ "\n",
       "  number " ++ toString (1 : Int) ++ "\n",
       "  inside box " ++ boxListOf extEx wMol ++ "\n",
       "end structure\n\n"]) :=
  ⟨rfl, rfl, C3_amended extEx wMol 0 ⟨"water", 1, Coords.mol ⟨7⟩⟩ ⟨7⟩ rfl rfl⟩

/-- A left fold that only accumulates sums equals the initial value
plus the sum of the mapped list. -/
theorem foldl_add_eq_sum (f : MolDict → ℚ) (init : ℚ) (l : List MolDict) :
    l.foldl (fun acc d => acc + f d) init = init + (l.map f).sum := by
  induction l generalizing init with
  | nil => simp
  | cons d tl ih =>
    simp only [List.foldl_cons, List.map_cons, List.sum_cons, ih]
    ring

/-- C4: with no explicit box, the accumulated volume is the sum over
specs of (estimated molecular volume × tolerance padding × replica
count); the side length is the cube root of that total; the emitted box
line is `0.0 0.0 0.0 L L L` with `L` formatted to one decimal place;
and the side length is determined by the molecule list and tolerance
alone (identical inputs give an identical side length). -/
theorem C4_box_estimation (ext : Externals) (w w' : PackmolWrapper)
    (hbox : w.box = none) (hm : w'.molecules = w.molecules)
    (ht : w'.tolerance = w.tolerance) :
    netVolume ext w.molecules w.tolerance =
      ((w.molecules.map fun d =>
        ext.molecular_volume (resolveVol ext d) * w.tolerance * (d.number : ℚ)).sum) ∧
    boxLengthOf ext w = ext.cbrt (netVolume ext w.molecules w.tolerance) ∧
    boxListOf ext w =
      "0.0 0.0 0.0 " ++ fmtOneDec (boxLengthOf ext w) ++ " " ++
        fmtOneDec (boxLengthOf ext w) ++ " " ++ fmtOneDec (boxLengthOf ext w) ∧
    boxLengthOf ext w' = boxLengthOf ext w := by
  refine ⟨?_, rfl, ?_, ?_⟩
  · rw [netVolume]
    simpa using foldl_add_eq_sum
      (fun d => ext.molecular_volume (resolveVol ext d) * w.tolerance * (d.number : ℚ))
      0 w.molecules
  · rw [boxListOf, hbox]
    rfl
  · rw [boxLengthOf, boxLengthOf, hm, ht]

/-- C4 (witness): the theorem at `wEst` (compared with itself). -/
theorem C4_witness :
    wEst.box = none ∧ wEst.molecules = wEst.molecules ∧ wEst.tolerance = wEst.tolerance ∧
    (netVolume extEx wEst.molecules wEst.tolerance =
      ((wEst.molecules.map fun d =>
        extEx.molecular_volume (resolveVol extEx d) * wEst.tolerance * (d.number : ℚ)).sum) ∧
    boxLengthOf extEx wEst = extEx.cbrt (netVolume extEx wEst.molecules wEst.tolerance) ∧
    boxListOf extEx wEst =
      "0.0 0.0 0.0 " ++ fmtOneDec (boxLengthOf extEx wEst) ++ " " ++
        fmtOneDec (boxLengthOf extEx wEst) ++ " " ++ fmtOneDec (boxLengthOf extEx wEst) ∧
    boxLengthOf extEx wEst = boxLengthOf extEx wEst) :=
  ⟨rfl, rfl, rfl, C4_box_estimation extEx wEst wEst rfl rfl rfl⟩

/-- The file path referenced by the `structure` line of the block of
the spec at zero-based position `i`: the supplied path for a `str` or
`Path` source, the generated sidecar name for an in-memory source. -/
def sourcePath (i : Nat) (d : MolDict) : String :=
  match d.coords with
  | .str s => s
  | .pathObj p => p
  | .mol _ => sidecarName i
  | .other => ""

/-- C8: for a molecule list whose sources are all of the modelled
StructureSpec kinds (string path, `Path` object, or in-memory
structure), the input file holds exactly one block per spec, in list
order, each block being the four lines `structure`, `number`,
`inside box`, `end structure` in that order, each block ending with the
blank separator line; and the blocks follow the preamble. -/
theorem C8_blocks (ext : Externals) (w : PackmolWrapper)
    (h : ∀ d ∈ w.molecules, d.coords ≠ Coords.other) :
    allBlockChunks ext w = w.molecules.enum.map (fun p =>
      ["structure " ++ sourcePath p.1 p.2 ++ "\n",
       "  number " ++ toString p.2.number ++ "\n",
       "  inside box " ++ boxListOf ext w ++ "\n",
       "end structure\n\n"]) ∧
    (allBlockChunks ext w).length = w.molecules.length ∧
    inputChunks ext w = preambleChunks ext w ++ (allBlockChunks ext w).flatten := by
  refine ⟨?_, by simp [allBlockChunks], rfl⟩
  rw [allBlockChunks]
  apply List.map_congr_left
  intro p hp
  have hd : p.2 ∈ w.molecules := List.snd_mem_of_mem_enum hp
  cases hco : p.2.coords with
  | str s => simp [structureChunks, sourcePath, hco]
  | pathObj q => simp [structureChunks, sourcePath, hco]
  | mol m => simp [structureChunks, sourcePath, hco]
  | other => exact absurd hco (h p.2 hd)

/-- A concrete wrapper with two molecules: one sourced from a file
path, one in-memory. -/
def wTwo : PackmolWrapper :=
  packmolWrapperInit "/work" [⟨"EMC", 2, Coords.str "/data/EMC.xyz"⟩,
    ⟨"water", 1, Coords.mol ⟨7⟩⟩] (some [0, 0, 0, 10, 10, 10]) 2 1 none
    "packmol.inp" "packmol_out.xyz"

/-- C8 (witness): the theorem at the two-molecule wrapper `wTwo`. -/
theorem C8_witness :
    (∀ d ∈ wTwo.molecules, d.coords ≠ Coords.other) ∧
    (allBlockChunks extEx wTwo = wTwo.molecules.enum.map (fun p =>
      ["structure " ++ sourcePath p.1 p.2 ++ "\n",
       "  number " ++ toString p.2.number ++ "\n",
       "  inside box " ++ boxListOf extEx wTwo ++ "\n",
       "end structure\n\n"]) ∧
    (allBlockChunks extEx wTwo).length = wTwo.molecules.length ∧
    inputChunks extEx wTwo = preambleChunks extEx wTwo ++ (allBlockChunks extEx wTwo).flatten) :=
  ⟨by decide, C8_blocks extEx wTwo (by decide)⟩

/-- C9: when the box argument is supplied but is the empty list, the
truthiness test treats it as absent: the box line is the estimated one,
and the file writes and printed output coincide with those of the same
wrapper with `box = None`. -/
theorem C9_empty_box (ext : Externals) (w : PackmolWrapper) (h : w.box = some []) :
    boxListOf ext w = estimatedBoxList ext w ∧
    (make_packmol_input ext w).writes = (make_packmol_input ext { w with box := none }).writes ∧
    (make_packmol_input ext w).printed = (make_packmol_input ext { w with box := none }).printed := by
  have hb : pyTruthyBox w.box = false := by rw [h]; rfl
  have h1 : boxListOf ext w = estimatedBoxList ext w := by
    rw [boxListOf, hb]
    simp
  have h2 : boxListOf ext { w with box := none } = estimatedBoxList ext w := rfl
  refine ⟨h1, ?_, ?_⟩
  · simp only [make_packmol_input, inputChunks, allBlockChunks, h1, h2]
    rfl
  · simp only [make_packmol_input, hb]
    rfl

/-- A concrete wrapper constructed with an explicit empty box. -/
def wEmptyBox : PackmolWrapper :=
  packmolWrapperInit "/work" [⟨"water", 10, Coords.mol ⟨7⟩⟩] (some []) 2 1 none
    "packmol.inp" "packmol_out.xyz"

/-- C9 (witness): the theorem at the empty-box wrapper `wEmptyBox`. -/
theorem C9_witness :
    wEmptyBox.box = some [] ∧
    (boxListOf extEx wEmptyBox = estimatedBoxList extEx wEmptyBox ∧
    (make_packmol_input extEx wEmptyBox).writes =
      (make_packmol_input extEx { wEmptyBox with box := none }).writes ∧
    (make_packmol_input extEx wEmptyBox).printed =
      (make_packmol_input extEx { wEmptyBox with box := none }).printed) :=
  ⟨rfl, C9_empty_box extEx wEmptyBox rfl⟩

/-- Two strings with distinct first characters differ. -/
theorem ne_of_head_ne (x y : String) (cx cy : Char)
    (hx : x.data.head? = some cx) (hy : y.data.head? = some cy) (hne : cx ≠ cy) :
    x ≠ y := by
  intro h
  subst h
  rw [hx] at hy
  exact hne (Option.some.inj hy)

/-- C10: a spec whose `"coords"` value matches none of the three
`isinstance` branches still gets a block — the `number`, `inside box`
and `end structure` lines, in order — but that block opens with no
`structure` line (no line of the block has the `structure <path>`
shape). -/
theorem C10_no_structure_line (ext : Externals) (w : PackmolWrapper) (i : Nat)
    (d : MolDict) (hi : w.molecules[i]? = some d) (ho : d.coords = Coords.other) :
    (allBlockChunks ext w)[i]? = some
      ["  number " ++ toString d.number ++ "\n",
       "  inside box " ++ boxListOf ext w ++ "\n",
       "end structure\n\n"] ∧
    ∀ s : String, "structure " ++ s ++ "\n" ∉
      ["  number " ++ toString d.number ++ "\n",
       "  inside box " ++ boxListOf ext w ++ "\n",
       "end structure\n\n"] := by
  have henum : w.molecules.enum[i]? = some (i, d) := by
    rw [List.getElem?_enum, hi]
    rfl
  constructor
  · rw [allBlockChunks, List.getElem?_map, henum]
    simp [structureChunks, ho]
  · intro s hs
    simp only [List.mem_cons, List.not_mem_nil, or_false] at hs
    rcases hs with hcase | hcase | hcase
    · exact ne_of_head_ne ("structure " ++ s ++ "\n")
        ("  number " ++ toString d.number ++ "\n") 's' ' ' rfl rfl (by decide) hcase
    · exact ne_of_head_ne ("structure " ++ s ++ "\n")
        ("  inside box " ++ boxListOf ext w ++ "\n") 's' ' ' rfl rfl (by decide) hcase
    · exact ne_of_head_ne ("structure " ++ s ++ "\n")
        "end structure\n\n" 's' 'e' rfl rfl (by decide) hcase

/-- A concrete wrapper whose single molecule has a `"coords"` value of
none of the recognised types. -/
def wOther : PackmolWrapper :=
  packmolWrapperInit "/work" [⟨"mystery", 3, Coords.other⟩] (some [0, 0, 0, 5, 5, 5])
    2 1 none "packmol.inp" "packmol_out.xyz"

/-- C10 (witness): the theorem at `wOther`, index 0. -/
theorem C10_witness :
    wOther.molecules[0]? = some ⟨"mystery", 3, Coords.other⟩ ∧
    MolDict.coords ⟨"mystery", 3, Coords.other⟩ = Coords.other ∧
    ((allBlockChunks extEx wOther)[0]? = some
      ["  number " ++ toString (3 : Int) ++ "\n",
       "  inside box " ++ boxListOf extEx wOther ++ "\n",
       "end structure\n\n"] ∧
    ∀ s : String, "structure " ++ s ++ "\n" ∉
      ["  number " ++ toString (3 : Int) ++ "\n",
       "  inside box " ++ boxListOf extEx wOther ++ "\n",
       "end structure\n\n"]) :=
  ⟨rfl, rfl, C10_no_structure_line extEx wOther 0 ⟨"mystery", 3, Coords.other⟩ rfl rfl⟩

end MdgoPackmol
